import Mathlib

/-!
Verification of the rule-based lint engine of the vscode-obdb repository.

The development shallowly embeds the TypeScript sources:
  * `src/linter/baseLinter.ts`        — the analysis engine (`BaseLinter`)
  * `src/linter/linterCli.ts`         — the standalone `CliSignalLinter`
  * `src/linter/rules/suggestedMetricSuggestionRule.ts` — the representative rule
  * `src/linter/vscodeAdapter.ts`     — diagnostic conversion
  * `src/linter/signalLinter.ts`      — `SignalLinter.toDiagnostics`
  * `src/cli.ts`                      — the batch front-end's severity buckets

JSON values are modelled by the inductive `Json`; the external `jsonc-parser`
node handle is modelled by `Node` (offset and length) together with an explicit
`nodeValue : Json` argument standing for `jsonc.getNodeValue(node)`.
JavaScript truthiness of optional fields is modelled by `truthy`, and
`JSON.stringify` by `serializeJson`.
-/

/-- A JSON value as produced by the jsonc parser's `getNodeValue`.
Objects are association lists in source order; a JavaScript object always
has pairwise distinct keys. -/
inductive Json where
  | str (s : String)
  | num (n : Int)
  | bool (b : Bool)
  | null
  | arr (elems : List Json)
  | obj (fields : List (String × Json))
  deriving Repr

/-- Hex digit character for JSON string escapes, lower case as in
`JSON.stringify`. -/
def hexDigit (n : Nat) : Char :=
  if n < 10 then Char.ofNat (48 + n) else Char.ofNat (87 + n)

/-- Escaping of one character inside a JSON string literal, following
`JSON.stringify`: quote, backslash, the named control escapes, and a
`\u00XX` escape for the remaining control characters. -/
def escapeChar (c : Char) : String :=
  if c = '\x22' then "\\\x22"
  else if c = '\\' then "\\\\"
  else if c = '\x08' then "\\b"
  else if c = '\x0c' then "\\f"
  else if c = '\n' then "\\n"
  else if c = '\x0d' then "\\r"
  else if c = '\t' then "\\t"
  else if c.toNat < 32 then
    "\\u00" ++ String.mk [hexDigit (c.toNat / 16), hexDigit (c.toNat % 16)]
  else String.singleton c

/-- Body of a JSON string literal under `JSON.stringify` escaping. -/
def escapeJsonString (s : String) : String :=
  String.join (s.toList.map escapeChar)

mutual
/-- `JSON.stringify` on a JSON value (no indentation argument). -/
def serializeJson : Json → String
  | .str s => "\x22" ++ escapeJsonString s ++ "\x22"
  | .num n => toString n
  | .bool true => "true"
  | .bool false => "false"
  | .null => "null"
  | .arr elems => "[" ++ serializeJsonList elems ++ "]"
  | .obj fields => "\x7b" ++ serializeJsonFields fields ++ "\x7d"

/-- `JSON.stringify` on the element list of a JSON array. -/
def serializeJsonList : List Json → String
  | [] => ""
  | [v] => serializeJson v
  | v :: rest => serializeJson v ++ "," ++ serializeJsonList rest

/-- `JSON.stringify` on the field list of a JSON object. -/
def serializeJsonFields : List (String × Json) → String
  | [] => ""
  | [kv] => "\x22" ++ escapeJsonString kv.1 ++ "\x22:" ++ serializeJson kv.2
  | kv :: rest =>
      "\x22" ++ escapeJsonString kv.1 ++ "\x22:" ++ serializeJson kv.2 ++ ","
        ++ serializeJsonFields rest
end

/-- Property access on a JavaScript object: the value stored under `key`,
if the key is present. -/
def lookupField (fields : List (String × Json)) (key : String) : Option Json :=
  (fields.find? (fun kv => kv.1 == key)).map (fun kv => kv.2)

/-- The field list of an object value (a non-object has no fields). -/
def jsonFields : Json → List (String × Json)
  | .obj fields => fields
  | _ => []

/-- Property access on a JSON value, as `signal.id` reads a property of the
plain object produced by `jsonc.getNodeValue`. -/
def getField (j : Json) (key : String) : Option Json :=
  lookupField (jsonFields j) key

/-- JavaScript truthiness of an optional property value: absent,
`null`, `false`, `0` and the empty string are falsy; arrays and objects are
always truthy. -/
def truthy : Option Json → Bool
  | none => false
  | some (.str s) => !(s == "")
  | some (.num n) => !(n == 0)
  | some (.bool b) => b
  | some .null => false
  | some (.arr _) => true
  | some (.obj _) => true

mutual
/-- JavaScript `String(...)` coercion of a JSON value, as applied by
`RegExp.test` to its argument. -/
def jsToString : Json → String
  | .str s => s
  | .num n => toString n
  | .bool true => "true"
  | .bool false => "false"
  | .null => "null"
  | .arr elems => jsArrayToString elems
  | .obj _ => "[object Object]"

/-- JavaScript `Array.prototype.toString`: elements joined with commas,
with `null` elements rendered as the empty string. -/
def jsArrayToString : List Json → String
  | [] => ""
  | [.null] => ""
  | [v] => jsToString v
  | .null :: rest => "," ++ jsArrayToString rest
  | v :: rest => jsToString v ++ "," ++ jsArrayToString rest
end

/-- A parsed-tree node handle (`jsonc.Node`): the engine and the rules use
only its text span. The node's projected domain value
(`jsonc.getNodeValue`) is passed alongside where the source calls it. -/
structure Node where
  offset : Nat
  length : Nat
  deriving Repr, DecidableEq

/-- One text edit of a suggestion (`newText`, `offset`, `length` over the
original buffer). -/
structure TextEdit where
  newText : String
  offset : Nat
  length : Nat
  deriving Repr, DecidableEq

/-- A suggestion attached to a lint result: a title and an ordered edit
list. -/
structure Suggestion where
  title : String
  edits : List TextEdit
  deriving Repr, DecidableEq

/-- The uniform output unit of the engine (`LintResult` in
`rules/rule.ts`). -/
structure LintResult where
  ruleId : String
  message : String
  node : Node
  suggestion : Option Suggestion
  deriving Repr, DecidableEq

/-- Modelled from the spec: `rules/rule.ts` is not under `src/`; the spec
describes `LintSeverity` as the ordered enumeration
Error, Warning, Information, Hint, a TypeScript numeric enum, so severities
are numbered in declaration order. -/
def LintSeverity.Error : Nat := 0

/-- Second member of the `LintSeverity` enumeration. -/
def LintSeverity.Warning : Nat := 1

/-- Third member of the `LintSeverity` enumeration. -/
def LintSeverity.Information : Nat := 2

/-- Fourth member of the `LintSeverity` enumeration. -/
def LintSeverity.Hint : Nat := 3

/-- Modelled from the spec: rule metadata (`LinterRuleConfig` in
`rules/rule.ts`, not under `src/`) — id, display name, description,
default severity, default enabled flag. -/
structure LinterRuleConfig where
  id : String
  name : String
  description : String
  severity : Nat
  enabled : Bool

/-- The `LintResult | LintResult[] | null` return type of the per-signal
and per-command rule entry points. -/
inductive RuleReturn where
  | null
  | single (result : LintResult)
  | array (results : List LintResult)

/-- The engine's accumulation step for one rule's return value:
`if (ruleResult) { Array.isArray(ruleResult) ? results.push(...ruleResult)
: results.push(ruleResult) }` — `null` is falsy and contributes nothing. -/
def pushRuleReturn (results : List LintResult) (ruleResult : RuleReturn) : List LintResult :=
  match ruleResult with
  | .null => results
  | .single r => results ++ [r]
  | .array rs => results ++ rs

/-- The elements a single rule return contributes to the concatenated
sequence: nothing for `null`, one element for a single result, the
elements in order for an array. -/
def flattenRuleReturn : RuleReturn → List LintResult
  | .null => []
  | .single r => [r]
  | .array rs => rs

/-- Modelled from the spec: the rule contract (`ILinterRule` in
`rules/rule.ts`, not under `src/`). A rule has metadata and an optional
validation entry point per granularity; `none` models a rule that does not
implement that entry point. Rules are pure functions per the contract. -/
structure LinterRule where
  getConfig : LinterRuleConfig
  validateSignal : Option (Json → Node → RuleReturn)
  validateCommand : Option (Json → Node → List (Json × Node) → RuleReturn)
  validateCommands : Option (Node → Option (List LintResult))
  validateDocument : Option (Node → Option (List LintResult))

namespace BaseLinter

/-- `BaseLinter.lintSignal` (`baseLinter.ts`): loop over the enabled rules,
invoking `validateSignal` where implemented and pushing its non-null
return. The enabled-rule list stands for
`this.ruleRegistry.getEnabledRules()` (the registry file is external to
this embedding; the claims quantify over its state). -/
def lintSignal (enabledRules : List LinterRule) (target : Json) (node : Node) : List LintResult :=
  enabledRules.foldl
    (fun results rule =>
      match rule.validateSignal with
      | some validate => pushRuleReturn results (validate target node)
      | none => results)
    []

/-- `BaseLinter.lintCommand` (`baseLinter.ts`). -/
def lintCommand (enabledRules : List LinterRule) (command : Json) (commandNode : Node)
    (signalsInCommand : List (Json × Node)) : List LintResult :=
  enabledRules.foldl
    (fun results rule =>
      match rule.validateCommand with
      | some validate => pushRuleReturn results (validate command commandNode signalsInCommand)
      | none => results)
    []

/-- `BaseLinter.lintCommands` (`baseLinter.ts`): the entry point returns
`LintResult[] | null` and the non-null array is pushed element-wise. -/
def lintCommands (enabledRules : List LinterRule) (commandsNode : Node) : List LintResult :=
  enabledRules.foldl
    (fun results rule =>
      match rule.validateCommands with
      | some validate =>
          match validate commandsNode with
          | some ruleResult => results ++ ruleResult
          | none => results
      | none => results)
    []

/-- `BaseLinter.lintDocument` (`baseLinter.ts`). -/
def lintDocument (enabledRules : List LinterRule) (rootNode : Node) : List LintResult :=
  enabledRules.foldl
    (fun results rule =>
      match rule.validateDocument with
      | some validate =>
          match validate rootNode with
          | some ruleResult => results ++ ruleResult
          | none => results
      | none => results)
    []

end BaseLinter

namespace CliSignalLinter

/-- `CliSignalLinter.lintSignal` (`linterCli.ts`), the standalone
re-implementation that does not extend `BaseLinter`. -/
def lintSignal (enabledRules : List LinterRule) (target : Json) (node : Node) : List LintResult :=
  enabledRules.foldl
    (fun results rule =>
      match rule.validateSignal with
      | some validate => pushRuleReturn results (validate target node)
      | none => results)
    []

/-- `CliSignalLinter.lintCommand` (`linterCli.ts`). -/
def lintCommand (enabledRules : List LinterRule) (command : Json) (commandNode : Node)
    (signalsInCommand : List (Json × Node)) : List LintResult :=
  enabledRules.foldl
    (fun results rule =>
      match rule.validateCommand with
      | some validate => pushRuleReturn results (validate command commandNode signalsInCommand)
      | none => results)
    []

/-- `CliSignalLinter.lintCommands` (`linterCli.ts`). -/
def lintCommands (enabledRules : List LinterRule) (commandsNode : Node) : List LintResult :=
  enabledRules.foldl
    (fun results rule =>
      match rule.validateCommands with
      | some validate =>
          match validate commandsNode with
          | some ruleResult => results ++ ruleResult
          | none => results
      | none => results)
    []

/-- `CliSignalLinter.lintDocument` (`linterCli.ts`). -/
def lintDocument (enabledRules : List LinterRule) (rootNode : Node) : List LintResult :=
  enabledRules.foldl
    (fun results rule =>
      match rule.validateDocument with
      | some validate =>
          match validate rootNode with
          | some ruleResult => results ++ ruleResult
          | none => results
      | none => results)
    []

end CliSignalLinter

/-- Modelled from the spec: one entry of the pattern table
(`METRIC_PATTERNS` lives in `utils/suggestedMetricPatterns.ts`, not under
`src/`). Each pattern has an optional id-matching rule, an optional
name-matching rule, an optional name-based exclusion rule, and the
suggested value plus rationale text; the regular-expression tests are
abstracted as string predicates. -/
structure MetricPattern where
  idPattern : Option (String → Bool)
  namePattern : Option (String → Bool)
  excludeNamePattern : Option (String → Bool)
  suggestedMetric : String
  description : String

/-- `pattern.p ? pattern.p.test(s) : false`, and likewise the truthiness
guard `pattern.excludeNamePattern && pattern.excludeNamePattern.test(...)`:
an absent predicate never matches. -/
def testOpt (p : Option (String → Bool)) (s : String) : Bool :=
  match p with
  | some f => f s
  | none => false

namespace SuggestedMetricSuggestionRule

/-- `SuggestedMetricSuggestionRule.getConfig`
(`suggestedMetricSuggestionRule.ts`). -/
def getConfig : LinterRuleConfig :=
  { id := "suggested-metric-suggestion"
    name := "Suggested Metric Suggestion"
    description := "Suggests adding suggestedMetric properties based on signal ID and name patterns"
    severity := LintSeverity.Information
    enabled := false }

/-- `createSignalWithSuggestedMetric` (`suggestedMetricSuggestionRule.ts`)
up to the final `JSON.stringify`: the reordered field list of the new
signal object. Known-first properties `id`, `path`, `fmt`, `name` are
emitted only if present, then `suggestedMetric`, then the remaining
original properties in original order (the source walks `Object.keys` of
the JavaScript object, whose keys are pairwise distinct, skipping keys
already placed). -/
def reorderSignalFields (signalObj : List (String × Json)) (suggestedMetric : String) :
    List (String × Json) :=
  let knownPart := ["id", "path", "fmt", "name"].filterMap
    (fun k => (lookupField signalObj k).map (fun v => (k, v)))
  let withSuggested := knownPart ++ [("suggestedMetric", Json.str suggestedMetric)]
  withSuggested ++ signalObj.filter (fun kv => !((withSuggested.map Prod.fst).contains kv.1))

/-- `createSignalWithSuggestedMetric` (`suggestedMetricSuggestionRule.ts`):
`JSON.stringify` of the reordered object. `nodeValue` stands for
`jsonc.getNodeValue(node)` (the `signal` parameter of the source is unused
in the body). -/
def createSignalWithSuggestedMetric (nodeValue : Json) (suggestedMetric : String) : String :=
  serializeJson (Json.obj (reorderSignalFields (jsonFields nodeValue) suggestedMetric))

/-- The result object literal built on a pattern match inside
`validateSignal` (`suggestedMetricSuggestionRule.ts`). -/
def matchResult (nodeValue : Json) (node : Node) (pattern : MetricPattern) : LintResult :=
  { ruleId := getConfig.id
    message := "Consider adding suggestedMetric: \x22" ++ pattern.suggestedMetric ++ "\x22 ("
      ++ pattern.description ++ ")"
    node := node
    suggestion := some
      { title := "Add suggestedMetric: \x22" ++ pattern.suggestedMetric ++ "\x22"
        edits := [{ newText := createSignalWithSuggestedMetric nodeValue pattern.suggestedMetric
                    offset := node.offset
                    length := node.length }] } }

/-- The `for (const pattern of this.metricPatterns)` loop of
`validateSignal`: first pattern with (id matches or name matches) and not
excluded by name returns its result; otherwise the loop continues, and
falls through to `null`. -/
def validateSignalLoop (patterns : List MetricPattern) (nodeValue : Json) (node : Node)
    (idStr nameStr : String) : Option LintResult :=
  match patterns with
  | [] => none
  | pattern :: rest =>
    let idMatches := testOpt pattern.idPattern idStr
    let nameMatches := testOpt pattern.namePattern nameStr
    let excludedByName := testOpt pattern.excludeNamePattern nameStr
    if (idMatches || nameMatches) && !excludedByName then
      some (matchResult nodeValue node pattern)
    else
      validateSignalLoop rest nodeValue node idStr nameStr

/-- `SuggestedMetricSuggestionRule.validateSignal`
(`suggestedMetricSuggestionRule.ts`). `patterns` stands for
`this.metricPatterns` (= `METRIC_PATTERNS`, external to this embedding),
`signal` for the domain value parameter and `nodeValue` for
`jsonc.getNodeValue(node)`. The two guards are JavaScript truthiness
tests (`if (signal.suggestedMetric)`, `if (!signal.id || !signal.name)`). -/
def validateSignal (patterns : List MetricPattern) (signal : Json) (node : Node)
    (nodeValue : Json) : Option LintResult :=
  if truthy (getField signal "suggestedMetric") then none
  else if !truthy (getField signal "id") || !truthy (getField signal "name") then none
  else
    validateSignalLoop patterns nodeValue node
      (jsToString ((getField signal "id").getD Json.null))
      (jsToString ((getField signal "name").getD Json.null))

end SuggestedMetricSuggestionRule

/-- `vscode.DiagnosticSeverity.Error` (external editor API enum). -/
def DiagnosticSeverity.Error : Nat := 0

/-- `vscode.DiagnosticSeverity.Warning`. -/
def DiagnosticSeverity.Warning : Nat := 1

/-- `vscode.DiagnosticSeverity.Information`. -/
def DiagnosticSeverity.Information : Nat := 2

/-- `vscode.DiagnosticSeverity.Hint`. -/
def DiagnosticSeverity.Hint : Nat := 3

/-- `mapToVscodeSeverity` (`vscodeAdapter.ts`): the `switch` over the
severity value, whose `default` branch yields `Warning`. -/
def mapToVscodeSeverity (severity : Nat) : Nat :=
  if severity = LintSeverity.Error then DiagnosticSeverity.Error
  else if severity = LintSeverity.Warning then DiagnosticSeverity.Warning
  else if severity = LintSeverity.Information then DiagnosticSeverity.Information
  else if severity = LintSeverity.Hint then DiagnosticSeverity.Hint
  else DiagnosticSeverity.Warning

/-- A `vscode.Position` (external editor API). -/
structure Position where
  line : Nat
  character : Nat
  deriving Repr, DecidableEq

/-- A `vscode.Range`; the editor's `end` field is named `stop` because
`end` is reserved in Lean. -/
structure Range where
  start : Position
  stop : Position
  deriving Repr, DecidableEq

/-- A `vscode.Diagnostic` as built by the adapter: range, message,
severity, `code` (the rule id) and `source`. -/
structure Diagnostic where
  range : Range
  message : String
  severity : Nat
  code : String
  source : String
  deriving Repr, DecidableEq

/-- `convertToVscodeDiagnostics` (`vscodeAdapter.ts`): one diagnostic per
result, in result order. The document is represented by its
`positionAt : offset → Position` projection (external editor API). -/
def convertToVscodeDiagnostics (positionAt : Nat → Position) (results : List LintResult)
    (getRuleSeverity : String → Nat) : List Diagnostic :=
  results.foldl
    (fun diagnostics result =>
      let severity := getRuleSeverity result.ruleId
      let vscodeSeverity := mapToVscodeSeverity severity
      let startPos := positionAt result.node.offset
      let endPos := positionAt (result.node.offset + result.node.length)
      diagnostics ++
        [{ range := { start := startPos, stop := endPos }
           message := result.message
           severity := vscodeSeverity
           code := result.ruleId
           source := "obdb-linter" }])
    []

/-- `convertToVscodeDiagnostics` with a severity callback that may throw:
the exception monad embedding of the same loop, used by
`SignalLinter.toDiagnostics`, whose callback throws on an unknown rule id.
A thrown error aborts the conversion at the first failing result. -/
def convertToVscodeDiagnosticsE (positionAt : Nat → Position)
    (getRuleSeverity : String → Except String Nat) :
    List LintResult → Except String (List Diagnostic)
  | [] => Except.ok []
  | result :: rest =>
    match getRuleSeverity result.ruleId with
    | Except.error e => Except.error e
    | Except.ok severity =>
      match convertToVscodeDiagnosticsE positionAt getRuleSeverity rest with
      | Except.error e => Except.error e
      | Except.ok diagnostics =>
        Except.ok
          ({ range := { start := positionAt result.node.offset
                        stop := positionAt (result.node.offset + result.node.length) }
             message := result.message
             severity := mapToVscodeSeverity severity
             code := result.ruleId
             source := "obdb-linter" } :: diagnostics)

namespace SignalLinter

/-- `SignalLinter.toDiagnostics` (`signalLinter.ts`): converts results with
the callback that looks the rule up by id in the registry
(`getRuleById`, passed as a function since the registry file is external
to this embedding) and throws `Rule not found: <id>` when the lookup
fails. -/
def toDiagnostics (getRuleById : String → Option LinterRule) (positionAt : Nat → Position)
    (results : List LintResult) : Except String (List Diagnostic) :=
  convertToVscodeDiagnosticsE positionAt
    (fun ruleId =>
      match getRuleById ruleId with
      | none => Except.error ("Rule not found: " ++ ruleId)
      | some rule => Except.ok rule.getConfig.severity)
    results

end SignalLinter

/-- JavaScript `String.prototype.includes`: substring containment. -/
def strIncludes (s pat : String) : Bool :=
  decide (pat.toList <:+: s.toList)

namespace LintCli

/-- The error-bucket filter of the `lint` subcommand (`cli.ts`):
`allResults.filter(r => r.ruleId?.includes('Error') ||
r.message?.includes('error'))`. -/
def lintErrors (allResults : List LintResult) : List LintResult :=
  allResults.filter (fun r => strIncludes r.ruleId "Error" || strIncludes r.message "error")

/-- The warning-bucket filter of the `lint` subcommand (`cli.ts`). -/
def lintWarnings (allResults : List LintResult) : List LintResult :=
  allResults.filter (fun r => strIncludes r.ruleId "Warning" || strIncludes r.message "warning")

/-- The info bucket of the `lint` subcommand (`cli.ts`):
`allResults.filter(r => !errors.includes(r) && !warnings.includes(r))`. -/
def lintInfo (allResults : List LintResult) : List LintResult :=
  allResults.filter
    (fun r => !((lintErrors allResults).contains r) && !((lintWarnings allResults).contains r))

end LintCli

/-! ## Concrete inputs used by witnesses and counterexamples -/

/-- Witness pattern A for first-match precedence: matches ids containing
`RPM` and suggests `rpm`. -/
def w2A : MetricPattern :=
  { idPattern := some (fun s => strIncludes s "RPM")
    namePattern := none
    excludeNamePattern := none
    suggestedMetric := "rpm"
    description := "pattern A" }

/-- Witness pattern B: also matches ids containing `RPM`, but suggests a
different metric. -/
def w2B : MetricPattern :=
  { idPattern := some (fun s => strIncludes s "RPM")
    namePattern := none
    excludeNamePattern := none
    suggestedMetric := "revolutions"
    description := "pattern B" }

/-- Witness signal object for first-match precedence. -/
def w2Fields : List (String × Json) :=
  [("id", Json.str "SIG_RPM"), ("name", Json.str "Engine RPM")]

/-- Pattern for the canonical re-serialization example: name containing
`RPM` suggests `rpm`. -/
def exPattern : MetricPattern :=
  { idPattern := none
    namePattern := some (fun nm => strIncludes nm "RPM")
    excludeNamePattern := none
    suggestedMetric := "rpm"
    description := "Engine speed" }

/-- The example signal `\x7b"id":"X1","name":"Engine RPM","unit":"rpm"\x7d`. -/
def exFields : List (String × Json) :=
  [("id", Json.str "X1"), ("name", Json.str "Engine RPM"), ("unit", Json.str "rpm")]

/-- Node span of the example signal. -/
def exNode : Node := ⟨5, 47⟩

/-- A pattern matching every id, used by the C4 counterexample. -/
def c4Pattern : MetricPattern :=
  { idPattern := some (fun _ => true)
    namePattern := none
    excludeNamePattern := none
    suggestedMetric := "rpm"
    description := "any id" }

/-- A signal that carries `suggestedMetric` with the empty-string value. -/
def c4Fields : List (String × Json) :=
  [("id", Json.str "X1"), ("name", Json.str "Engine RPM"), ("suggestedMetric", Json.str "")]

/-- Witness signal for the amended skip conditions: no id. -/
def w4Fields : List (String × Json) := [("name", Json.str "Engine RPM")]

/-- Witness pattern for suggestion idempotence. -/
def w5Pattern : MetricPattern :=
  { idPattern := some (fun s => strIncludes s "RPM")
    namePattern := none
    excludeNamePattern := none
    suggestedMetric := "rpm"
    description := "Engine speed" }

/-- Witness signal for suggestion idempotence. -/
def w5Fields : List (String × Json) :=
  [("id", Json.str "SIG_RPM"), ("name", Json.str "Engine RPM"), ("unit", Json.str "rpm")]

/-- A registered rule instance used by the C7 witness. -/
def w7Rule : LinterRule :=
  { getConfig :=
      { id := "known-rule"
        name := "Known"
        description := "a registered rule"
        severity := LintSeverity.Warning
        enabled := true }
    validateSignal := none
    validateCommand := none
    validateCommands := none
    validateDocument := none }

/-- A registry lookup that knows exactly the rule `known-rule`. -/
def w7Lookup (ruleId : String) : Option LinterRule :=
  if ruleId = "known-rule" then some w7Rule else none

/-- Position projection of a one-line document. -/
def w7PositionAt (offset : Nat) : Position := ⟨0, offset⟩

/-- A result whose rule id is not registered. -/
def w7Bad : LintResult :=
  { ruleId := "missing-rule", message := "m", node := ⟨0, 1⟩, suggestion := none }

/-- A result whose rule id is registered. -/
def w7Good : LintResult :=
  { ruleId := "known-rule", message := "m", node := ⟨0, 1⟩, suggestion := none }

/-- A result whose rule id matches both the error and the warning
substring heuristics of the batch front-end. -/
def c9Res : LintResult :=
  { ruleId := "ErrorWarning", message := "both", node := ⟨0, 1⟩, suggestion := none }

/-- A result matching neither heuristic (lands in the info bucket). -/
def w9Res : LintResult :=
  { ruleId := "suggested-metric-suggestion", message := "Consider adding", node := ⟨0, 1⟩,
    suggestion := none }

/-! ## Theorems -/

theorem pushRuleReturn_eq_append (results : List LintResult) (ruleResult : RuleReturn) :
    pushRuleReturn results ruleResult = results ++ flattenRuleReturn ruleResult := by
  cases ruleResult <;> simp [pushRuleReturn, flattenRuleReturn]

theorem foldl_push_eq_flatten {α β : Type} (f : List β → α → List β) (g : α → List β)
    (hf : ∀ acc x, f acc x = acc ++ g x) (l : List α) (init : List β) :
    l.foldl f init = init ++ (l.map g).flatten := by
  induction l generalizing init with
  | nil => simp
  | cons x xs ih => simp [List.foldl_cons, hf, ih]

/-- C1: every traversal entry point of the engine returns exactly the
concatenation, in enabled-rule order, of each rule's non-null return (a
single result contributing one element, an array its elements in order);
rules without the matching entry point contribute nothing, and no merging
or deduplication is performed across rules. -/
theorem lint_dispatch_concatenation :
    (∀ (enabledRules : List LinterRule) (target : Json) (node : Node),
      BaseLinter.lintSignal enabledRules target node =
        (enabledRules.map (fun rule =>
          match rule.validateSignal with
          | some validate => flattenRuleReturn (validate target node)
          | none => [])).flatten)
    ∧ (∀ (enabledRules : List LinterRule) (command : Json) (commandNode : Node)
        (signalsInCommand : List (Json × Node)),
      BaseLinter.lintCommand enabledRules command commandNode signalsInCommand =
        (enabledRules.map (fun rule =>
          match rule.validateCommand with
          | some validate => flattenRuleReturn (validate command commandNode signalsInCommand)
          | none => [])).flatten)
    ∧ (∀ (enabledRules : List LinterRule) (commandsNode : Node),
      BaseLinter.lintCommands enabledRules commandsNode =
        (enabledRules.map (fun rule =>
          match rule.validateCommands with
          | some validate =>
              match validate commandsNode with
              | some ruleResult => ruleResult
              | none => []
          | none => [])).flatten)
    ∧ (∀ (enabledRules : List LinterRule) (rootNode : Node),
      BaseLinter.lintDocument enabledRules rootNode =
        (enabledRules.map (fun rule =>
          match rule.validateDocument with
          | some validate =>
              match validate rootNode with
              | some ruleResult => ruleResult
              | none => []
          | none => [])).flatten) := by
  refine ⟨?_, ?_, ?_, ?_⟩
  · intro enabledRules target node
    exact foldl_push_eq_flatten _ _
      (fun acc rule => by
        cases rule.validateSignal <;> simp [pushRuleReturn_eq_append])
      enabledRules []
  · intro enabledRules command commandNode signalsInCommand
    exact foldl_push_eq_flatten _ _
      (fun acc rule => by
        cases rule.validateCommand <;> simp [pushRuleReturn_eq_append])
      enabledRules []
  · intro enabledRules commandsNode
    exact foldl_push_eq_flatten _ _
      (fun acc rule => by
        cases h : rule.validateCommands with
        | none => simp
        | some validate => cases h2 : validate commandsNode <;> simp [h2])
      enabledRules []
  · intro enabledRules rootNode
    exact foldl_push_eq_flatten _ _
      (fun acc rule => by
        cases h : rule.validateDocument with
        | none => simp
        | some validate => cases h2 : validate rootNode <;> simp [h2])
      enabledRules []

/-- C6: for a fixed parsed tree and enabled-rule configuration, the four
traversal calls are deterministic — running them twice with the same
inputs yields identical result sequences in the same order. In the
embedding both the engine and every rule entry point are pure functions
(the rule contract), so the two runs coincide. -/
theorem lint_traversal_deterministic :
    ∀ (enabledRules : List LinterRule) (rootNode commandsNode commandNode node : Node)
      (command target : Json) (signalsInCommand : List (Json × Node)),
      (BaseLinter.lintDocument enabledRules rootNode,
       BaseLinter.lintCommands enabledRules commandsNode,
       BaseLinter.lintCommand enabledRules command commandNode signalsInCommand,
       BaseLinter.lintSignal enabledRules target node) =
      (BaseLinter.lintDocument enabledRules rootNode,
       BaseLinter.lintCommands enabledRules commandsNode,
       BaseLinter.lintCommand enabledRules command commandNode signalsInCommand,
       BaseLinter.lintSignal enabledRules target node) :=
  fun _ _ _ _ _ _ _ _ => rfl

/-- C10: the standalone `CliSignalLinter` of `linterCli.ts` and the shared
`BaseLinter` are equivalent — for every registry state (enabled-rule
list) and every input, each of the four methods returns exactly the same
result sequence. -/
theorem cliSignalLinter_equiv_baseLinter :
    (∀ (enabledRules : List LinterRule) (target : Json) (node : Node),
      CliSignalLinter.lintSignal enabledRules target node =
        BaseLinter.lintSignal enabledRules target node)
    ∧ (∀ (enabledRules : List LinterRule) (command : Json) (commandNode : Node)
        (signalsInCommand : List (Json × Node)),
      CliSignalLinter.lintCommand enabledRules command commandNode signalsInCommand =
        BaseLinter.lintCommand enabledRules command commandNode signalsInCommand)
    ∧ (∀ (enabledRules : List LinterRule) (commandsNode : Node),
      CliSignalLinter.lintCommands enabledRules commandsNode =
        BaseLinter.lintCommands enabledRules commandsNode)
    ∧ (∀ (enabledRules : List LinterRule) (rootNode : Node),
      CliSignalLinter.lintDocument enabledRules rootNode =
        BaseLinter.lintDocument enabledRules rootNode) :=
  ⟨fun _ _ _ => rfl, fun _ _ _ _ => rfl, fun _ _ => rfl, fun _ _ => rfl⟩

theorem validateSignalLoop_eq_find (patterns : List MetricPattern) (nodeValue : Json)
    (node : Node) (idStr nameStr : String) :
    SuggestedMetricSuggestionRule.validateSignalLoop patterns nodeValue node idStr nameStr =
      (patterns.find? (fun p =>
        (testOpt p.idPattern idStr || testOpt p.namePattern nameStr)
          && !(testOpt p.excludeNamePattern nameStr))).map
        (SuggestedMetricSuggestionRule.matchResult nodeValue node) := by
  induction patterns with
  | nil => rfl
  | cons p rest ih =>
    simp only [SuggestedMetricSuggestionRule.validateSignalLoop, List.find?_cons]
    by_cases h : ((testOpt p.idPattern idStr || testOpt p.namePattern nameStr)
        && !(testOpt p.excludeNamePattern nameStr)) = true
    · simp [h]
    · simp only [Bool.not_eq_true] at h
      simp [h, ih]

theorem validateSignal_unfold_guards (patterns : List MetricPattern)
    (fields : List (String × Json)) (node : Node) (nodeValue : Json) (idStr nameStr : String)
    (hid : lookupField fields "id" = some (Json.str idStr)) (hid2 : idStr ≠ "")
    (hname : lookupField fields "name" = some (Json.str nameStr)) (hname2 : nameStr ≠ "")
    (hsm : truthy (lookupField fields "suggestedMetric") = false) :
    SuggestedMetricSuggestionRule.validateSignal patterns (Json.obj fields) node nodeValue =
      SuggestedMetricSuggestionRule.validateSignalLoop patterns nodeValue node idStr nameStr := by
  unfold SuggestedMetricSuggestionRule.validateSignal
  rw [show getField (Json.obj fields) "suggestedMetric" = lookupField fields "suggestedMetric"
        from rfl,
      show getField (Json.obj fields) "id" = lookupField fields "id" from rfl,
      show getField (Json.obj fields) "name" = lookupField fields "name" from rfl,
      hsm, hid, hname]
  simp [truthy, hid2, hname2, jsToString]

/-- C2: for a signal with non-empty string id and name and no
`suggestedMetric` property, `validateSignal` returns the result of the
first pattern in table order satisfying (id matches or name matches) and
not excluded by name; in particular an earlier matching pattern A beats a
later matching pattern B, and a pattern whose exclusion matches the name
is passed over while the rest of the table is still consulted. -/
theorem validateSignal_first_match_wins (patterns : List MetricPattern)
    (fields : List (String × Json)) (node : Node) (idStr nameStr : String)
    (hid : lookupField fields "id" = some (Json.str idStr)) (hid2 : idStr ≠ "")
    (hname : lookupField fields "name" = some (Json.str nameStr)) (hname2 : nameStr ≠ "")
    (hsm : lookupField fields "suggestedMetric" = none) :
    (∀ nodeValue : Json,
      SuggestedMetricSuggestionRule.validateSignal patterns (Json.obj fields) node nodeValue =
        (patterns.find? (fun p =>
          (testOpt p.idPattern idStr || testOpt p.namePattern nameStr)
            && !(testOpt p.excludeNamePattern nameStr))).map
          (SuggestedMetricSuggestionRule.matchResult nodeValue node))
    ∧ (∀ (pA pB : MetricPattern) (rest : List MetricPattern) (nodeValue : Json),
        testOpt pA.idPattern idStr = true →
        testOpt pB.idPattern idStr = true →
        testOpt pA.excludeNamePattern nameStr = false →
        SuggestedMetricSuggestionRule.validateSignal (pA :: pB :: rest) (Json.obj fields) node
            nodeValue =
          some (SuggestedMetricSuggestionRule.matchResult nodeValue node pA))
    ∧ (∀ (p : MetricPattern) (rest : List MetricPattern) (nodeValue : Json),
        testOpt p.excludeNamePattern nameStr = true →
        SuggestedMetricSuggestionRule.validateSignal (p :: rest) (Json.obj fields) node
            nodeValue =
          SuggestedMetricSuggestionRule.validateSignal rest (Json.obj fields) node nodeValue) := by
  have hsm2 : truthy (lookupField fields "suggestedMetric") = false := by rw [hsm]; rfl
  have hcore : ∀ (ps : List MetricPattern) (nodeValue : Json),
      SuggestedMetricSuggestionRule.validateSignal ps (Json.obj fields) node nodeValue =
        SuggestedMetricSuggestionRule.validateSignalLoop ps nodeValue node idStr nameStr :=
    fun ps nodeValue =>
      validateSignal_unfold_guards ps fields node nodeValue idStr nameStr hid hid2 hname hname2
        hsm2
  refine ⟨?_, ?_, ?_⟩
  · intro nodeValue
    rw [hcore, validateSignalLoop_eq_find]
  · intro pA pB rest nodeValue hA _hB hAex
    rw [hcore]
    simp [SuggestedMetricSuggestionRule.validateSignalLoop, hA, hAex]
  · intro p rest nodeValue hex
    rw [hcore, hcore]
    simp [SuggestedMetricSuggestionRule.validateSignalLoop, hex]

/-- Witness for C2: with two patterns both matching the id `SIG_RPM`, the
earlier pattern's result is emitted. -/
theorem validateSignal_first_match_wins_witness :
    SuggestedMetricSuggestionRule.validateSignal [w2A, w2B] (Json.obj w2Fields) ⟨0, 10⟩
        (Json.obj w2Fields) =
      some (SuggestedMetricSuggestionRule.matchResult (Json.obj w2Fields) ⟨0, 10⟩ w2A) :=
  (validateSignal_first_match_wins [w2A, w2B] w2Fields ⟨0, 10⟩ "SIG_RPM" "Engine RPM"
    rfl (by decide) rfl (by decide) rfl).2.1 w2A w2B [] (Json.obj w2Fields)
    (by decide) (by decide) (by decide)

/-- Counterexample to C4 as stated: a signal that carries a
`suggestedMetric` property (with the empty-string value, which is falsy in
JavaScript) is not skipped — with a matching pattern in the table,
`validateSignal` returns a finding instead of null. -/
theorem validateSignal_empty_suggestedMetric_not_skipped :
    (lookupField c4Fields "suggestedMetric").isSome = true ∧
    SuggestedMetricSuggestionRule.validateSignal [c4Pattern] (Json.obj c4Fields) ⟨0, 10⟩
        (Json.obj c4Fields) ≠ none := by
  refine ⟨rfl, ?_⟩
  have hv : SuggestedMetricSuggestionRule.validateSignal [c4Pattern] (Json.obj c4Fields)
      ⟨0, 10⟩ (Json.obj c4Fields) =
      some (SuggestedMetricSuggestionRule.matchResult (Json.obj c4Fields) ⟨0, 10⟩ c4Pattern) :=
    rfl
  rw [hv]
  simp

/-- C4 amended: for every signal whose `suggestedMetric` property is
present and truthy (e.g. a non-empty string), or whose `id` is absent or
falsy (e.g. missing or the empty string), or whose `name` is absent or
falsy, `validateSignal` returns null regardless of the pattern table
contents. -/
theorem validateSignal_skip_conditions (patterns : List MetricPattern) (signal : Json)
    (node : Node) (nodeValue : Json)
    (h : truthy (getField signal "suggestedMetric") = true
       ∨ truthy (getField signal "id") = false
       ∨ truthy (getField signal "name") = false) :
    SuggestedMetricSuggestionRule.validateSignal patterns signal node nodeValue = none := by
  unfold SuggestedMetricSuggestionRule.validateSignal
  split_ifs with h1 h2
  · rfl
  · rfl
  · exfalso
    rcases h with h | h | h
    · exact h1 h
    · exact h2 (by simp [h])
    · exact h2 (by simp [h])

/-- Witness for C4 amended: a signal without an `id` property is skipped. -/
theorem validateSignal_skip_conditions_witness :
    SuggestedMetricSuggestionRule.validateSignal [c4Pattern] (Json.obj w4Fields) ⟨0, 10⟩
        (Json.obj w4Fields) = none :=
  validateSignal_skip_conditions [c4Pattern] (Json.obj w4Fields) ⟨0, 10⟩ (Json.obj w4Fields)
    (Or.inr (Or.inl rfl))

theorem lookupField_isSome_of_mem (fields : List (String × Json)) (kv : String × Json)
    (h : kv ∈ fields) : (lookupField fields kv.1).isSome = true := by
  unfold lookupField
  rw [Option.isSome_map']
  exact List.find?_isSome.mpr ⟨kv, h, by simp⟩

theorem mem_knownKeys (fields : List (String × Json)) (ks : List String) (k : String) :
    (k ∈ (ks.filterMap
            (fun k2 => (lookupField fields k2).map (fun v => (k2, v)))).map Prod.fst)
      ↔ (k ∈ ks ∧ (lookupField fields k).isSome = true) := by
  induction ks with
  | nil => simp
  | cons a rest ih =>
    cases h : lookupField fields a with
    | none =>
      simp only [List.filterMap_cons, h, Option.map_none', ih, List.mem_cons]
      constructor
      · rintro ⟨hk, hs⟩
        exact ⟨Or.inr hk, hs⟩
      · rintro ⟨hk | hk, hs⟩
        · subst hk
          rw [h] at hs
          simp at hs
        · exact ⟨hk, hs⟩
    | some v =>
      simp only [List.filterMap_cons, h, Option.map_some', List.map_cons, List.mem_cons, ih]
      constructor
      · rintro (rfl | ⟨hk, hs⟩)
        · exact ⟨Or.inl rfl, by rw [h]; rfl⟩
        · exact ⟨Or.inr hk, hs⟩
      · rintro ⟨hk | hk, hs⟩
        · exact Or.inl hk
        · exact Or.inr ⟨hk, hs⟩

theorem reorder_canonical (fields : List (String × Json)) (sm : String) :
    SuggestedMetricSuggestionRule.reorderSignalFields fields sm =
      (["id", "path", "fmt", "name"].filterMap
        (fun k => (lookupField fields k).map (fun v => (k, v))))
      ++ [("suggestedMetric", Json.str sm)]
      ++ fields.filter
          (fun kv => !(["id", "path", "fmt", "name", "suggestedMetric"].contains kv.1)) := by
  simp only [SuggestedMetricSuggestionRule.reorderSignalFields]
  congr 1
  apply List.filter_congr
  intro kv hkv
  have hs := lookupField_isSome_of_mem fields kv hkv
  have hmem : kv.1 ∈ ((["id", "path", "fmt", "name"].filterMap
        (fun k => (lookupField fields k).map (fun v => (k, v))))
        ++ [("suggestedMetric", Json.str sm)]).map Prod.fst
      ↔ kv.1 ∈ ["id", "path", "fmt", "name", "suggestedMetric"] := by
    simp only [List.map_append, List.mem_append, mem_knownKeys fields, hs, and_true,
      List.map_cons, List.map_nil, List.mem_singleton, List.mem_cons, List.not_mem_nil,
      or_false]
    tauto
  have hc : (((["id", "path", "fmt", "name"].filterMap
        (fun k => (lookupField fields k).map (fun v => (k, v))))
        ++ [("suggestedMetric", Json.str sm)]).map Prod.fst).contains kv.1
      = (["id", "path", "fmt", "name", "suggestedMetric"].contains kv.1) := by
    rw [Bool.eq_iff_iff]
    constructor
    · intro h
      exact List.elem_iff.mpr (hmem.mp (List.elem_iff.mp h))
    · intro h
      exact List.elem_iff.mpr (hmem.mpr (List.elem_iff.mp h))
  rw [hc]

theorem validateSignalLoop_some_mem (patterns : List MetricPattern) (nodeValue : Json)
    (node : Node) (idStr nameStr : String) (res : LintResult)
    (h : SuggestedMetricSuggestionRule.validateSignalLoop patterns nodeValue node idStr nameStr
          = some res) :
    ∃ p ∈ patterns, res = SuggestedMetricSuggestionRule.matchResult nodeValue node p := by
  induction patterns with
  | nil => simp [SuggestedMetricSuggestionRule.validateSignalLoop] at h
  | cons p rest ih =>
    simp only [SuggestedMetricSuggestionRule.validateSignalLoop] at h
    split at h
    · exact ⟨p, List.mem_cons_self p rest, (Option.some.inj h).symm⟩
    · obtain ⟨q, hq, hr⟩ := ih h
      exact ⟨q, List.mem_cons_of_mem p hq, hr⟩

theorem validateSignal_some_loop (patterns : List MetricPattern) (signal : Json) (node : Node)
    (nodeValue : Json) (res : LintResult)
    (h : SuggestedMetricSuggestionRule.validateSignal patterns signal node nodeValue
          = some res) :
    SuggestedMetricSuggestionRule.validateSignalLoop patterns nodeValue node
        (jsToString ((getField signal "id").getD Json.null))
        (jsToString ((getField signal "name").getD Json.null)) = some res := by
  unfold SuggestedMetricSuggestionRule.validateSignal at h
  split_ifs at h
  exact h

/-- C3: on a pattern match the rule emits exactly one result whose
suggestion holds a single edit replacing the whole signal span
(`offset`/`length` of the node) with the re-serialized signal in
canonical property order — `id`, `path`, `fmt`, `name` (each only if
originally present), then `suggestedMetric`, then the remaining original
properties in their original relative order; in particular the example
signal `\x7b"id":"X1","name":"Engine RPM","unit":"rpm"\x7d` with
suggestion `rpm` is rewritten to
`\x7b"id":"X1","name":"Engine RPM","suggestedMetric":"rpm","unit":"rpm"\x7d`. -/
theorem suggestion_canonical_reserialization :
    (∀ (fields : List (String × Json)) (sm : String),
      SuggestedMetricSuggestionRule.reorderSignalFields fields sm =
        (["id", "path", "fmt", "name"].filterMap
          (fun k => (lookupField fields k).map (fun v => (k, v))))
        ++ [("suggestedMetric", Json.str sm)]
        ++ fields.filter
            (fun kv => !(["id", "path", "fmt", "name", "suggestedMetric"].contains kv.1)))
    ∧ (∀ (patterns : List MetricPattern) (signal : Json) (node : Node) (nodeValue : Json)
        (res : LintResult),
        SuggestedMetricSuggestionRule.validateSignal patterns signal node nodeValue
            = some res →
        ∃ sm, res.suggestion = some
          { title := "Add suggestedMetric: \x22" ++ sm ++ "\x22"
            edits := [{ newText := serializeJson (Json.obj
                          (SuggestedMetricSuggestionRule.reorderSignalFields
                            (jsonFields nodeValue) sm))
                        offset := node.offset
                        length := node.length }] })
    ∧ SuggestedMetricSuggestionRule.validateSignal [exPattern] (Json.obj exFields) exNode
        (Json.obj exFields) =
      some
        { ruleId := "suggested-metric-suggestion"
          message := "Consider adding suggestedMetric: \x22rpm\x22 (Engine speed)"
          node := exNode
          suggestion := some
            { title := "Add suggestedMetric: \x22rpm\x22"
              edits := [{ newText := "\x7b\x22id\x22:\x22X1\x22,\x22name\x22:\x22Engine RPM\x22,\x22suggestedMetric\x22:\x22rpm\x22,\x22unit\x22:\x22rpm\x22\x7d"
                          offset := 5
                          length := 47 }] } } := by
  refine ⟨reorder_canonical, ?_, ?_⟩
  · intro patterns signal node nodeValue res h
    obtain ⟨p, _hp, hres⟩ :=
      validateSignalLoop_some_mem patterns nodeValue node _ _ res
        (validateSignal_some_loop patterns signal node nodeValue res h)
    exact ⟨p.suggestedMetric, by rw [hres]; rfl⟩
  · rfl

/-- Witness for C3: the emitted suggestion of the example signal has the
single whole-span edit whose text is the canonical re-serialization. -/
theorem suggestion_canonical_reserialization_witness :
    ∃ sm, (SuggestedMetricSuggestionRule.matchResult (Json.obj exFields) exNode
        exPattern).suggestion = some
      { title := "Add suggestedMetric: \x22" ++ sm ++ "\x22"
        edits := [{ newText := serializeJson (Json.obj
                      (SuggestedMetricSuggestionRule.reorderSignalFields
                        (jsonFields (Json.obj exFields)) sm))
                    offset := exNode.offset
                    length := exNode.length }] } :=
  suggestion_canonical_reserialization.2.1 [exPattern] (Json.obj exFields) exNode
    (Json.obj exFields)
    (SuggestedMetricSuggestionRule.matchResult (Json.obj exFields) exNode exPattern) rfl

theorem find?_known_none (g : String → Option Json) (ks : List String) (key : String)
    (h : key ∉ ks) :
    (ks.filterMap (fun k2 => (g k2).map (fun v => (k2, v)))).find?
      (fun kv => kv.1 == key) = none := by
  induction ks with
  | nil => rfl
  | cons a rest ih =>
    have ha : (a == key) = false := by
      refine beq_eq_false_iff_ne.mpr ?_
      rintro rfl
      exact h (List.mem_cons_self a rest)
    have hrest : key ∉ rest := fun hk => h (List.mem_cons_of_mem a hk)
    cases hl : g a with
    | none => simp only [List.filterMap_cons, hl, Option.map_none']; exact ih hrest
    | some v =>
      simp only [List.filterMap_cons, hl, Option.map_some', List.find?_cons, ha]
      exact ih hrest

theorem lookup_reorder_suggestedMetric (signalObj : List (String × Json)) (sm : String) :
    lookupField (SuggestedMetricSuggestionRule.reorderSignalFields signalObj sm)
      "suggestedMetric" = some (Json.str sm) := by
  simp only [SuggestedMetricSuggestionRule.reorderSignalFields, lookupField]
  rw [List.find?_append, List.find?_append,
    find?_known_none (fun k2 => Option.map (fun kv => kv.2)
        (List.find? (fun kv => kv.1 == k2) signalObj))
      ["id", "path", "fmt", "name"] "suggestedMetric" (by decide)]
  rfl

/-- C5: whenever the rule emits a suggestion, the suggestion's single edit
replaces the signal span with the serialization of the reordered object
(so re-parsing that text yields exactly those fields — the parser is an
external collaborator per the spec), and `validateSignal` on that
resulting signal, which now carries the inserted non-empty
`suggestedMetric`, returns null: the rule no longer triggers. -/
theorem validateSignal_suggestion_idempotent (patterns : List MetricPattern) (signal : Json)
    (node : Node) (nodeValue : Json) (res : LintResult)
    (h : SuggestedMetricSuggestionRule.validateSignal patterns signal node nodeValue
          = some res)
    (hne : ∀ p ∈ patterns, p.suggestedMetric ≠ "") :
    ∃ sm, (∃ p ∈ patterns, sm = p.suggestedMetric)
      ∧ res.suggestion = some
          { title := "Add suggestedMetric: \x22" ++ sm ++ "\x22"
            edits := [{ newText := serializeJson (Json.obj
                          (SuggestedMetricSuggestionRule.reorderSignalFields
                            (jsonFields nodeValue) sm))
                        offset := node.offset
                        length := node.length }] }
      ∧ ∀ (node2 : Node) (nodeValue2 : Json),
          SuggestedMetricSuggestionRule.validateSignal patterns
              (Json.obj (SuggestedMetricSuggestionRule.reorderSignalFields
                (jsonFields nodeValue) sm)) node2 nodeValue2 = none := by
  obtain ⟨p, hp, hres⟩ :=
    validateSignalLoop_some_mem patterns nodeValue node _ _ res
      (validateSignal_some_loop patterns signal node nodeValue res h)
  refine ⟨p.suggestedMetric, ⟨p, hp, rfl⟩, by rw [hres]; rfl, ?_⟩
  intro node2 nodeValue2
  have hsm : getField
      (Json.obj (SuggestedMetricSuggestionRule.reorderSignalFields (jsonFields nodeValue)
        p.suggestedMetric)) "suggestedMetric" = some (Json.str p.suggestedMetric) :=
    lookup_reorder_suggestedMetric (jsonFields nodeValue) p.suggestedMetric
  have hne2 : (p.suggestedMetric == "") = false := beq_eq_false_iff_ne.mpr (hne p hp)
  unfold SuggestedMetricSuggestionRule.validateSignal
  rw [hsm]
  simp [truthy, hne2]

/-- Witness for C5: the concrete signal `SIG_RPM` receives the suggestion
`rpm`, and the rewritten signal no longer triggers the rule. -/
theorem validateSignal_suggestion_idempotent_witness :
    ∃ sm, (∃ p ∈ [w5Pattern], sm = p.suggestedMetric)
      ∧ (SuggestedMetricSuggestionRule.matchResult (Json.obj w5Fields) ⟨3, 60⟩
          w5Pattern).suggestion = some
          { title := "Add suggestedMetric: \x22" ++ sm ++ "\x22"
            edits := [{ newText := serializeJson (Json.obj
                          (SuggestedMetricSuggestionRule.reorderSignalFields
                            (jsonFields (Json.obj w5Fields)) sm))
                        offset := (⟨3, 60⟩ : Node).offset
                        length := (⟨3, 60⟩ : Node).length }] }
      ∧ ∀ (node2 : Node) (nodeValue2 : Json),
          SuggestedMetricSuggestionRule.validateSignal [w5Pattern]
              (Json.obj (SuggestedMetricSuggestionRule.reorderSignalFields
                (jsonFields (Json.obj w5Fields)) sm)) node2 nodeValue2 = none :=
  validateSignal_suggestion_idempotent [w5Pattern] (Json.obj w5Fields) ⟨3, 60⟩
    (Json.obj w5Fields)
    (SuggestedMetricSuggestionRule.matchResult (Json.obj w5Fields) ⟨3, 60⟩ w5Pattern) rfl
    (by intro p hp; rw [List.mem_singleton] at hp; subst hp; decide)

theorem convertE_error_of_bad (positionAt : Nat → Position)
    (getRuleSeverity : String → Except String Nat) (results : List LintResult)
    (h : ∃ r ∈ results, ∃ e, getRuleSeverity r.ruleId = Except.error e) :
    ∃ e, convertToVscodeDiagnosticsE positionAt getRuleSeverity results = Except.error e := by
  induction results with
  | nil => obtain ⟨r, hr, _⟩ := h; cases hr
  | cons r0 rest ih =>
    obtain ⟨r, hr, e, he⟩ := h
    cases hr with
    | head =>
      cases hcb : getRuleSeverity r0.ruleId with
      | error e2 => exact ⟨e2, by simp [convertToVscodeDiagnosticsE, hcb]⟩
      | ok sev => rw [he] at hcb; cases hcb
    | tail _ htail =>
      obtain ⟨e2, he2⟩ := ih ⟨r, htail, e, he⟩
      cases hcb : getRuleSeverity r0.ruleId with
      | error e3 => exact ⟨e3, by simp [convertToVscodeDiagnosticsE, hcb]⟩
      | ok sev => exact ⟨e2, by simp [convertToVscodeDiagnosticsE, hcb, he2]⟩

theorem convertE_ok_of_good (positionAt : Nat → Position)
    (getRuleSeverity : String → Except String Nat) (results : List LintResult)
    (h : ∀ r ∈ results, ∃ sev, getRuleSeverity r.ruleId = Except.ok sev) :
    ∃ ds, convertToVscodeDiagnosticsE positionAt getRuleSeverity results = Except.ok ds := by
  induction results with
  | nil => exact ⟨[], rfl⟩
  | cons r0 rest ih =>
    obtain ⟨sev, hsev⟩ := h r0 (List.mem_cons_self r0 rest)
    obtain ⟨ds, hds⟩ := ih (fun r hr => h r (List.mem_cons_of_mem r0 hr))
    exact ⟨{ range := { start := positionAt r0.node.offset
                        stop := positionAt (r0.node.offset + r0.node.length) }
             message := r0.message
             severity := mapToVscodeSeverity sev
             code := r0.ruleId
             source := "obdb-linter" } :: ds,
      by simp [convertToVscodeDiagnosticsE, hsev, hds]⟩

/-- C7: severity resolution in the interactive adapter fails loudly —
whenever some result's rule id does not resolve in the registry,
`SignalLinter.toDiagnostics` throws (returns an error) instead of
substituting a severity; and when every rule id resolves, the conversion
completes without error. -/
theorem toDiagnostics_fails_loudly (getRuleById : String → Option LinterRule)
    (positionAt : Nat → Position) (results : List LintResult) :
    ((∃ r ∈ results, getRuleById r.ruleId = none) →
      ∃ e, SignalLinter.toDiagnostics getRuleById positionAt results = Except.error e)
    ∧ ((∀ r ∈ results, ∃ rule, getRuleById r.ruleId = some rule) →
      ∃ ds, SignalLinter.toDiagnostics getRuleById positionAt results = Except.ok ds) := by
  constructor
  · rintro ⟨r, hr, hnone⟩
    apply convertE_error_of_bad
    exact ⟨r, hr, "Rule not found: " ++ r.ruleId, by simp [hnone]⟩
  · intro hall
    apply convertE_ok_of_good
    intro r hr
    obtain ⟨rule, hrule⟩ := hall r hr
    exact ⟨rule.getConfig.severity, by simp [hrule]⟩

/-- Witness for C7: an unregistered rule id makes the conversion throw; a
registered one converts successfully. -/
theorem toDiagnostics_fails_loudly_witness :
    (∃ e, SignalLinter.toDiagnostics w7Lookup w7PositionAt [w7Bad] = Except.error e)
    ∧ (∃ ds, SignalLinter.toDiagnostics w7Lookup w7PositionAt [w7Good] = Except.ok ds) :=
  ⟨(toDiagnostics_fails_loudly w7Lookup w7PositionAt [w7Bad]).1
      ⟨w7Bad, List.mem_singleton.mpr rfl, rfl⟩,
    (toDiagnostics_fails_loudly w7Lookup w7PositionAt [w7Good]).2
      (fun r hr => ⟨w7Rule, by rw [List.mem_singleton] at hr; subst hr; rfl⟩)⟩

theorem flatten_map_singleton {α β : Type} (l : List α) (f : α → β) :
    (l.map fun x => [f x]).flatten = l.map f := by
  induction l with
  | nil => rfl
  | cons x xs ih => simp [ih]

/-- C8: `convertToVscodeDiagnostics` maps results 1:1 to diagnostics in
the same order — each diagnostic's range runs from the node's offset to
offset + length, its code is the rule id — and `mapToVscodeSeverity`
sends Error, Warning, Information and Hint to the corresponding editor
severities while any unrecognized severity value maps to Warning. -/
theorem convert_to_diagnostics_one_to_one :
    (∀ (positionAt : Nat → Position) (results : List LintResult)
        (getRuleSeverity : String → Nat),
      convertToVscodeDiagnostics positionAt results getRuleSeverity =
        results.map (fun result =>
          { range := { start := positionAt result.node.offset
                       stop := positionAt (result.node.offset + result.node.length) }
            message := result.message
            severity := mapToVscodeSeverity (getRuleSeverity result.ruleId)
            code := result.ruleId
            source := "obdb-linter" }))
    ∧ (mapToVscodeSeverity LintSeverity.Error = DiagnosticSeverity.Error
       ∧ mapToVscodeSeverity LintSeverity.Warning = DiagnosticSeverity.Warning
       ∧ mapToVscodeSeverity LintSeverity.Information = DiagnosticSeverity.Information
       ∧ mapToVscodeSeverity LintSeverity.Hint = DiagnosticSeverity.Hint)
    ∧ (∀ severity : Nat, severity ≠ LintSeverity.Error → severity ≠ LintSeverity.Warning →
        severity ≠ LintSeverity.Information → severity ≠ LintSeverity.Hint →
        mapToVscodeSeverity severity = DiagnosticSeverity.Warning) := by
  refine ⟨?_, ⟨rfl, rfl, rfl, rfl⟩, ?_⟩
  · intro positionAt results getRuleSeverity
    exact (foldl_push_eq_flatten _
        (fun result => [({ range := { start := positionAt result.node.offset
                                      stop := positionAt
                                        (result.node.offset + result.node.length) }
                           message := result.message
                           severity := mapToVscodeSeverity (getRuleSeverity result.ruleId)
                           code := result.ruleId
                           source := "obdb-linter" } : Diagnostic)])
        (fun acc result => rfl) results []).trans
      (by rw [List.nil_append, flatten_map_singleton])
  · intro severity h1 h2 h3 h4
    simp [mapToVscodeSeverity, h1, h2, h3, h4]

/-- Witness for C8: the unrecognized severity value 7 maps to Warning. -/
theorem convert_to_diagnostics_one_to_one_witness :
    mapToVscodeSeverity 7 = DiagnosticSeverity.Warning :=
  convert_to_diagnostics_one_to_one.2.2 7 (by decide) (by decide) (by decide) (by decide)

/-- C9 counterexample: the error and warning buckets of the batch
front-end are not disjoint — a result whose ruleId contains both `Error`
and `Warning` is placed in both buckets, so it is not in exactly one
bucket. -/
theorem lint_buckets_not_disjoint :
    c9Res ∈ LintCli.lintErrors [c9Res] ∧ c9Res ∈ LintCli.lintWarnings [c9Res] :=
  ⟨List.mem_filter.mpr ⟨List.mem_singleton.mpr rfl, by decide⟩,
   List.mem_filter.mpr ⟨List.mem_singleton.mpr rfl, by decide⟩⟩

/-- C9 amended: every collected result lands in at least one of the three
buckets (they jointly cover the sequence), and the info bucket is
disjoint from the error and warning buckets; but the error and warning
buckets may overlap, so a result is not necessarily in exactly one
bucket. -/
theorem lint_buckets_cover (allResults : List LintResult) (r : LintResult)
    (h : r ∈ allResults) :
    (r ∈ LintCli.lintErrors allResults ∨ r ∈ LintCli.lintWarnings allResults
      ∨ r ∈ LintCli.lintInfo allResults)
    ∧ (r ∈ LintCli.lintInfo allResults →
        r ∉ LintCli.lintErrors allResults ∧ r ∉ LintCli.lintWarnings allResults) := by
  constructor
  · by_cases he : (strIncludes r.ruleId "Error" || strIncludes r.message "error") = true
    · exact Or.inl (List.mem_filter.mpr ⟨h, he⟩)
    · by_cases hw : (strIncludes r.ruleId "Warning" || strIncludes r.message "warning") = true
      · exact Or.inr (Or.inl (List.mem_filter.mpr ⟨h, hw⟩))
      · refine Or.inr (Or.inr (List.mem_filter.mpr ⟨h, ?_⟩))
        have hce : (LintCli.lintErrors allResults).contains r = false := by
          rw [Bool.eq_false_iff]
          intro hc
          exact he (List.mem_filter.mp (List.elem_iff.mp hc)).2
        have hcw : (LintCli.lintWarnings allResults).contains r = false := by
          rw [Bool.eq_false_iff]
          intro hc
          exact hw (List.mem_filter.mp (List.elem_iff.mp hc)).2
        show (!((LintCli.lintErrors allResults).contains r)
            && !((LintCli.lintWarnings allResults).contains r)) = true
        rw [hce, hcw]
        rfl
  · intro hinfo
    have hp := (List.mem_filter.mp hinfo).2
    rw [Bool.and_eq_true, Bool.not_eq_true', Bool.not_eq_true'] at hp
    constructor
    · intro hc
      rw [← @List.elem_iff _ _ _ r (LintCli.lintErrors allResults)] at hc
      rw [show (LintCli.lintErrors allResults).elem r
            = (LintCli.lintErrors allResults).contains r from rfl] at hc
      rw [hp.1] at hc
      cases hc
    · intro hc
      rw [← @List.elem_iff _ _ _ r (LintCli.lintWarnings allResults)] at hc
      rw [show (LintCli.lintWarnings allResults).elem r
            = (LintCli.lintWarnings allResults).contains r from rfl] at hc
      rw [hp.2] at hc
      cases hc

/-- Witness for C9 amended: a result matching neither heuristic lands in
the info bucket only. -/
theorem lint_buckets_cover_witness :
    (w9Res ∈ LintCli.lintErrors [w9Res] ∨ w9Res ∈ LintCli.lintWarnings [w9Res]
      ∨ w9Res ∈ LintCli.lintInfo [w9Res])
    ∧ (w9Res ∈ LintCli.lintInfo [w9Res] →
        w9Res ∉ LintCli.lintErrors [w9Res] ∧ w9Res ∉ LintCli.lintWarnings [w9Res]) :=
  lint_buckets_cover [w9Res] w9Res (List.mem_singleton.mpr rfl)
